import Mathlib

/-!
Verification of the OpenSpaceNet argument-reading and detection pipeline.

The definitions below are a shallow embedding of `OpenSkyNetArgs.cpp`
(the `dg::osn` argument layer) together with the parts of the detection
pipeline the specification describes.  C++ `float`/`double` values are
modelled as rationals, `cv::Size`/`cv::Point` as pairs of naturals, and
the mutable `OpenSkyNetArgs` object as an explicit `Args` record threaded
through the reading functions.  Functions that can throw (`DG_CHECK`,
`DG_ERROR_THROW`) return `Except ArgsError`.
-/

/-- ASCII lower-casing of a single character, as `boost::to_lower` does in
the default "C" locale: characters outside `A`-`Z` are unchanged. -/
def asciiLowerChar (c : Char) : Char :=
  if 'A' ≤ c ∧ c ≤ 'Z' then Char.ofNat (c.toNat + 32) else c

/-- ASCII lower-casing of a string (`boost::to_lower`). -/
def asciiLower (s : String) : String :=
  String.mk (s.data.map asciiLowerChar)

/-- The filename component of a path: the part after the last `/`
(`boost::filesystem::path::filename`). -/
def filenameChars (p : String) : List Char :=
  (p.data.reverse.takeWhile (fun c => c ≠ '/')).reverse

/-- The stem of a filename: the filename with its last extension removed.
A lone dot at the start of the filename does not begin an extension, and
`.` / `..` are their own stems (`boost::filesystem::path::stem`). -/
def stemChars (f : List Char) : List Char :=
  if f = ['.', '.'] then f
  else
    let suffix := f.reverse.takeWhile (fun c => c ≠ '.')
    if suffix.length = f.length then f
    else
      let stemLen := f.length - suffix.length - 1
      if stemLen = 0 then f else f.take stemLen

/-- `path(p).stem().filename().string()` as used in
`OpenSkyNetArgs::readOutputArgs`: the `filename()` of a stem is the stem
itself, so this is the stem of the last path component. -/
def pathStem (p : String) : String :=
  String.mk (stemChars (filenameChars p))

/-- `cv::Rect2d`: the bounding-box value passed through `--bbox`. -/
structure Rect2d where
  x : ℚ
  y : ℚ
  width : ℚ
  height : ℚ
deriving DecidableEq, Repr

/-- The image-source variants of the `Source` enum. -/
inductive Source where
  | UNKNOWN
  | LOCAL
  | DGCS
  | EVWHS
  | MAPS_API
deriving DecidableEq, Repr

/-- `dg::deepcore::vector::GeometryType` as used by the output layer. -/
inductive GeometryType where
  | POINT
  | POLYGON
deriving DecidableEq, Repr

/-- The parsed variables map `vm_` after `boost::program_options` parsing,
restricted to the options the reading functions consult.  An `Option`
field is `none` when the option is absent from `vm_`; presence-only flags
(`cpu`, `producer-info`, `pyramid`, `quiet`) are booleans.  Options that
`boost` gives a `default_value` (`format`, `type`, `mapId`, `zoom`,
`num-downloads`, `confidence`, `max-utilization`) are still modelled as
`Option`s; the reading functions apply the boost default via `getD`. -/
structure Vm where
  bbox : Option Rect2d := none
  service : Option String := none
  image : Option String := none
  token : Option String := none
  credentials : Option String := none
  zoom : Option ℤ := none
  mapId : Option String := none
  numDownloads : Option ℤ := none
  cpu : Bool := false
  maxUtilization : Option ℚ := none
  model : Option String := none
  windowSize : Option (ℕ × ℕ) := none
  format : Option String := none
  output : Option String := none
  outputLayer : Option String := none
  type : Option String := none
  producerInfo : Bool := false
  confidence : Option ℚ := none
  stepSize : Option (ℕ × ℕ) := none
  pyramid : Bool := false
  nms : Option (List ℚ) := none
  log : Option (List String) := none
  quiet : Bool := false
deriving DecidableEq, Repr

/-- The mutable fields of `OpenSkyNetArgs` that the reading functions
assign, plus the warnings the functions log.  The record passed in plays
the role of the object's state before `readArgs` runs. -/
structure Args where
  source : Source := Source.UNKNOWN
  bbox : Option Rect2d := none
  image : String := ""
  token : String := ""
  credentials : String := ""
  zoom : ℤ := 18
  mapId : String := ""
  maxConnections : ℤ := 10
  useCpu : Bool := false
  maxUtilization : ℚ := 95
  modelPath : String := ""
  windowSize : Option (ℕ × ℕ) := none
  outputFormat : String := "shp"
  outputPath : String := ""
  layerName : String := "skynetdetects"
  geometryType : GeometryType := GeometryType.POLYGON
  producerInfo : Bool := false
  confidence : ℚ := 95
  stepSize : Option (ℕ × ℕ) := none
  pyramid : Bool := false
  nms : Bool := false
  overlap : ℚ := 30
  quiet : Bool := false
  warnings : List String := []
deriving DecidableEq, Repr

/-- Modelled from the spec: the field initializers of `OpenSkyNetArgs`
live in `OpenSkyNetArgs.h`, which is not under src/.  Per the spec the
NMS flag is off by default and `overlap`/`confidence` are configured
default percentages; the concrete numbers are taken from the option
help text defaults and are irrelevant to the theorems, which either
quantify over the incoming `Args` record or only use `nms = false`. -/
def initArgs : Args := {}

/-- The error conditions raised by `DG_CHECK`/`DG_ERROR_THROW` during
argument reading in `OpenSkyNetArgs.cpp`. -/
inductive ArgsError where
  | noInputSpecified
  | invalidService (s : String)
  | bboxRequiredForWebServices
  | missingToken
  | missingModel
  | missingOutput
  | invalidGeometryType (s : String)
  | logPathRequired
deriving DecidableEq, Repr

/-- `OpenSkyNetArgs::parseService`: lower-case the service name and map
it to a `Source`, throwing on anything unrecognized. -/
def parseService (service : String) : Except ArgsError Source :=
  let service := asciiLower service
  if service = "dgcs" then Except.ok Source.DGCS
  else if service = "evwhs" then Except.ok Source.EVWHS
  else if service = "maps-api" then Except.ok Source.MAPS_API
  else Except.error (ArgsError.invalidService service)

/-- `OpenSkyNetArgs::readWebServiceArgs`.  The first statement is
`DG_CHECK(bbox, ...)`; only then are `mapId`, `token`, `credentials`,
`zoom` and `num-downloads` read.  The interactive password prompt that
fires when credentials lack a `:` is console I/O and is elided; the
credentials value itself is stored as supplied. -/
def readWebServiceArgs (vm : Vm) (a : Args) : Except ArgsError Args :=
  match a.bbox with
  | none => Except.error ArgsError.bboxRequiredForWebServices
  | some _ =>
    let a := if a.source = Source.MAPS_API then { a with mapId := vm.mapId.getD a.mapId } else a
    match vm.token with
    | none => Except.error ArgsError.missingToken
    | some t =>
      let a := { a with token := t }
      let a := { a with credentials := vm.credentials.getD a.credentials }
      let a := { a with zoom := vm.zoom.getD a.zoom }
      Except.ok { a with maxConnections := vm.numDownloads.getD a.maxConnections }

/-- `OpenSkyNetArgs::readProcessingArgs`: CPU flag, utilization, required
model path, optional window size. -/
def readProcessingArgs (vm : Vm) (a : Args) : Except ArgsError Args :=
  let a := { a with useCpu := vm.cpu }
  let a := { a with maxUtilization := vm.maxUtilization.getD a.maxUtilization }
  match vm.model with
  | none => Except.error ArgsError.missingModel
  | some m => Except.ok { a with modelPath := m, windowSize := vm.windowSize }

/-- The geometry-type block of `OpenSkyNetArgs::readOutputArgs`: the
local `typeStr` starts as "polygon", is overwritten when `--type` is
present (boost also supplies "polygon" as the option default), is
lower-cased, and anything other than "polygon"/"point" throws. -/
def readGeometryType (typeOpt : Option String) : Except ArgsError GeometryType :=
  let typeStr := asciiLower (typeOpt.getD "polygon")
  if typeStr = "polygon" then Except.ok GeometryType.POLYGON
  else if typeStr = "point" then Except.ok GeometryType.POINT
  else Except.error (ArgsError.invalidGeometryType typeStr)

/-- The warning `OSN_LOG(warning)` prints when `--output-layer` is given
together with Shapefile output. -/
def shpLayerWarning : String := "output-layer argument is ignored for Shapefile output."

/-- `OpenSkyNetArgs::readOutputArgs`: format (boost default "shp",
lower-cased), required output path, layer-name resolution (Shapefile
output forces the stem of the output path and warns if a layer was
supplied; otherwise the supplied layer or "skynetdetects"), geometry
type, and the presence flag of `--producer-info`. -/
def readOutputArgs (vm : Vm) (a : Args) : Except ArgsError Args :=
  let a := { a with outputFormat := asciiLower (vm.format.getD a.outputFormat) }
  match vm.output with
  | none => Except.error ArgsError.missingOutput
  | some outPath =>
    let a := { a with outputPath := outPath }
    let layerSpecified := vm.outputLayer.isSome
    let a := { a with layerName := vm.outputLayer.getD a.layerName }
    let a :=
      if a.outputFormat = "shp" then
        let a := if layerSpecified then { a with warnings := a.warnings ++ [shpLayerWarning] } else a
        { a with layerName := pathStem outPath }
      else if ¬ layerSpecified then { a with layerName := "skynetdetects" }
      else a
    match readGeometryType vm.type with
    | Except.error e => Except.error e
    | Except.ok gt => Except.ok { a with geometryType := gt, producerInfo := vm.producerInfo }

/-- `OpenSkyNetArgs::readFeatureDetectionArgs`: confidence, step size and
pyramid flag are read, then `nms` is enabled exactly when the `--nms`
option is present; a value supplied with the option replaces `overlap`,
otherwise `overlap` keeps its previous (default) value.  No value
validation of any kind is performed here, and the function cannot
throw. -/
def readFeatureDetectionArgs (vm : Vm) (a : Args) : Args :=
  let a := { a with confidence := vm.confidence.getD a.confidence }
  let a := { a with stepSize := vm.stepSize }
  let a := { a with pyramid := vm.pyramid }
  match vm.nms with
  | none => a
  | some args =>
    let a := { a with nms := true }
    match args with
    | [] => a
    | v :: _ => { a with overlap := v }

/-- `OpenSkyNetArgs::readLoggingArgs` restricted to its error behavior:
`DG_CHECK(!logArgs.empty(), ...)`.  Console-sink switching and log-file
opening are I/O side effects and are elided. -/
def readLoggingArgs (vm : Vm) : Except ArgsError Unit :=
  match vm.log with
  | none => Except.ok ()
  | some [] => Except.error ArgsError.logPathRequired
  | some (_ :: _) => Except.ok ()

/-- `OpenSkyNetArgs::readArgs`: read the bbox, pick the web-service or
local-image input branch, then run the processing, output, feature
detection and logging readers in order and record the quiet flag.  In
the source a successful pass ends by constructing `OpenSkyNet` and
calling `process()`; any thrown error prevents that call, so an
`Except.error` result here means processing never begins. -/
def readArgs (vm : Vm) (a : Args) : Except ArgsError Args :=
  let a := { a with bbox := vm.bbox }
  let branch : Except ArgsError Args :=
    match vm.service with
    | some service =>
      match parseService service with
      | Except.error e => Except.error e
      | Except.ok src => readWebServiceArgs vm { a with source := src }
    | none =>
      match vm.image with
      | some img => Except.ok { a with image := img, source := Source.LOCAL }
      | none => Except.error ArgsError.noInputSpecified
  match branch with
  | Except.error e => Except.error e
  | Except.ok a =>
    match readProcessingArgs vm a with
    | Except.error e => Except.error e
    | Except.ok a =>
      match readOutputArgs vm a with
      | Except.error e => Except.error e
      | Except.ok a =>
        let a := readFeatureDetectionArgs vm a
        match readLoggingArgs vm with
        | Except.error e => Except.error e
        | Except.ok _ => Except.ok { a with quiet := vm.quiet }

/-!
### Option precedence (`OpenSkyNetArgs::parseArgs`)

`boost::program_options::store` records a value only for keys not
already in the map.  `parseArgs` stores the command line first, then the
environment, then the configuration files in reverse order of their
listing, so that among configuration files the one listed last wins and
command-line values always win.  We model the variables map as an
association list keyed by option name and `store` as insert-if-absent.
-/

/-- One `po::store` step for a single parsed entry: the entry is kept
only when its key has no value yet. -/
def storeOne (m : List (String × String)) (kv : String × String) : List (String × String) :=
  if (m.lookup kv.1).isSome then m else m ++ [kv]

/-- `po::store` of a whole parsed source (command line, environment or
one config file) into the variables map. -/
def store (m : List (String × String)) (entries : List (String × String)) :
    List (String × String) :=
  entries.foldl storeOne m

/-- The layering performed by `OpenSkyNetArgs::parseArgs`: store the
command line, then the environment (`OSN_` variables), then each
`--config` file iterating the file list in reverse. -/
def parseLayers (cmdline env : List (String × String))
    (configFiles : List (List (String × String))) : List (String × String) :=
  let m := store [] cmdline
  let m := store m env
  configFiles.reverse.foldl store m

/-!
### Non-maximum suppression (`NonMaxSuppressor`)

Modelled from the spec: the NMS implementation lives in the external
DeepCore library and is not under src/.  Per the spec, candidates are
sorted by descending confidence; the highest-remaining-confidence
feature is accepted and every remaining candidate of the same label
whose intersection-over-union with it exceeds the overlap threshold is
discarded; this repeats until no candidates remain.  Geometry is the
window rectangle; confidences and coordinates are modelled as rationals.
-/

/-- A window rectangle with rational coordinates. -/
structure Rect where
  x : ℚ
  y : ℚ
  width : ℚ
  height : ℚ
deriving DecidableEq, Repr

/-- Intersection area of two window rectangles. -/
def interArea (r s : Rect) : ℚ :=
  let iw := max 0 (min (r.x + r.width) (s.x + s.width) - max r.x s.x)
  let ih := max 0 (min (r.y + r.height) (s.y + s.height) - max r.y s.y)
  iw * ih

/-- Intersection-over-union of the two window rectangles, the NMS
overlap metric. -/
def iou (r s : Rect) : ℚ :=
  interArea r s / (r.width * r.height + s.width * s.height - interArea r s)

/-- A geo-referenced candidate feature: window geometry, label,
confidence and attribute fields. -/
structure Feature where
  window : Rect
  label : String
  confidence : ℚ
  fields : List (String × String)
deriving DecidableEq, Repr

/-- Whether an accepted feature `a` suppresses a remaining candidate
`b`: same label and overlap ratio above the threshold. -/
def suppresses (t : ℚ) (a b : Feature) : Bool :=
  a.label = b.label ∧ iou a.window b.window > t

/-- The greedy suppression pass over a confidence-sorted candidate list:
accept the head, drop every remaining candidate it suppresses, recurse. -/
def nmsPass (t : ℚ) : List Feature → List Feature
  | [] => []
  | x :: xs => x :: nmsPass t (xs.filter (fun y => ¬ suppresses t x y))
termination_by l => l.length
decreasing_by
  simp only [List.length_cons]
  exact Nat.lt_succ_of_le (List.length_filter_le _ _)

/-- Insertion of a feature into a descending-confidence list. -/
def insertDesc (x : Feature) : List Feature → List Feature
  | [] => [x]
  | y :: ys => if y.confidence ≤ x.confidence then x :: y :: ys else y :: insertDesc x ys

/-- Sorting candidates by descending confidence. -/
def sortDesc : List Feature → List Feature
  | [] => []
  | x :: xs => insertDesc x (sortDesc xs)

/-- `NonMaxSuppressor::suppress`: sort by descending confidence, then
run the greedy suppression pass. -/
def suppress (features : List Feature) (t : ℚ) : List Feature :=
  nmsPass t (sortDesc features)

/-!
### Detection aggregation (`OpenSpaceNet::addFeature`)

Modelled from the spec: the body of `OpenSpaceNet::addFeature` and
`OpenSpaceNet::createFeatureFields` (OpenSpaceNet.cpp) is not under
src/; only their declarations appear in OpenSpaceNet.h.  Per the spec,
predictions whose confidence is below the configured threshold are
discarded before the feature enters the FeatureCollection, and when
producer-info is enabled the same fixed metadata attributes (tool name,
version, operator) are attached uniformly to every feature of the run.
-/

/-- One (label, confidence) prediction returned by the inference
client for a window. -/
structure Prediction where
  label : String
  confidence : ℚ
deriving DecidableEq, Repr

/-- The fixed producer metadata of a run: operator user name, tool
name and tool version. -/
structure ProducerMeta where
  username : String
  appName : String
  appVersion : String
deriving DecidableEq, Repr

/-- Modelled from the spec: `OpenSpaceNet::createFeatureFields` attaches
the producer triple to the feature attributes exactly when producer-info
is enabled. -/
def createFeatureFields (producerInfo : Bool) (meta : ProducerMeta) (p : Prediction) :
    List (String × String) :=
  [("label", p.label)] ++
    (if producerInfo then
      [("username", meta.username), ("app", meta.appName), ("app_ver", meta.appVersion)]
    else [])

/-- Modelled from the spec: `OpenSpaceNet::addFeature` appends to the
feature collection one feature per prediction whose confidence is not
below the configured threshold; predictions below the threshold are
discarded. -/
def addFeature (threshold : ℚ) (producerInfo : Bool) (meta : ProducerMeta)
    (fc : List Feature) (window : Rect) (predictions : List Prediction) : List Feature :=
  fc ++ (predictions.filter (fun p => ¬ p.confidence < threshold)).map
    (fun p => Feature.mk window p.label p.confidence (createFeatureFields producerInfo meta p))

/-- The aggregation stage of a run: fold `addFeature` over every
processed window's predictions, starting from the empty collection. -/
def runDetection (threshold : ℚ) (producerInfo : Bool) (meta : ProducerMeta)
    (windows : List (Rect × List Prediction)) : List Feature :=
  windows.foldl (fun fc wp => addFeature threshold producerInfo meta fc wp.1 wp.2) []

/-- Modelled from the spec: the body of `OpenSpaceNet::calcSizes`
(OpenSpaceNet.cpp) is not under src/; only its declaration appears in
OpenSpaceNet.h.  Per the spec (and the `--step-size` help text in
OpenSkyNetArgs.cpp), the step size defaults to the base-two logarithm
of the window's largest dimension, the same value in both dimensions,
when unspecified; a supplied step size is used as-is. -/
def calcSizes (stepSize : Option (ℕ × ℕ)) (windowSize : ℕ × ℕ) : ℕ × ℕ :=
  match stepSize with
  | some p => p
  | none =>
    let l := Nat.log2 (max windowSize.1 windowSize.2)
    (l, l)

/-!
## Theorems
-/

/-- C5: reading the output geometry type maps "polygon"
(case-insensitively) to polygon geometry and "point" to point geometry,
uses polygon when the option is absent, and fails with a fatal error for
every other string; the thrown error aborts `readArgs` before
`OpenSkyNet::process` is reached. -/
theorem geometry_type_reading :
    readGeometryType none = Except.ok GeometryType.POLYGON ∧
    (∀ s : String, asciiLower s = "polygon" →
      readGeometryType (some s) = Except.ok GeometryType.POLYGON) ∧
    (∀ s : String, asciiLower s = "point" →
      readGeometryType (some s) = Except.ok GeometryType.POINT) ∧
    (∀ s : String, asciiLower s ≠ "polygon" → asciiLower s ≠ "point" →
      readGeometryType (some s) = Except.error (ArgsError.invalidGeometryType (asciiLower s))) := by
  refine ⟨rfl, fun s h => ?_, fun s h => ?_, fun s h1 h2 => ?_⟩
  · simp [readGeometryType, h]
  · simp [readGeometryType, h]
  · simp [readGeometryType, h1, h2]

/-- Witness for C5 at the concrete strings "Polygon", "POINT" and
"circle". -/
theorem geometry_type_reading_witness :
    readGeometryType (some "Polygon") = Except.ok GeometryType.POLYGON ∧
    readGeometryType (some "POINT") = Except.ok GeometryType.POINT ∧
    readGeometryType (some "circle") =
      Except.error (ArgsError.invalidGeometryType (asciiLower "circle")) :=
  ⟨geometry_type_reading.2.1 "Polygon" (by decide),
   geometry_type_reading.2.2.1 "POINT" (by decide),
   geometry_type_reading.2.2.2 "circle" (by decide) (by decide)⟩

/-- C6: non-maximum suppression is enabled exactly when the `--nms`
option is present; a value supplied with the option becomes the overlap
threshold and an option without a value leaves the configured default
overlap in place. -/
theorem nms_flag_and_threshold (vm : Vm) (a : Args) (h : a.nms = false) :
    ((readFeatureDetectionArgs vm a).nms = true ↔ vm.nms.isSome = true) ∧
    (∀ (v : ℚ) (rest : List ℚ), vm.nms = some (v :: rest) →
      (readFeatureDetectionArgs vm a).overlap = v) ∧
    (vm.nms = some [] → (readFeatureDetectionArgs vm a).overlap = a.overlap) := by
  unfold readFeatureDetectionArgs
  cases hnms : vm.nms with
  | none => simp [h]
  | some args => cases args <;> simp

/-- Witness for C6 at a concrete configuration carrying `--nms 7`. -/
theorem nms_flag_and_threshold_witness :
    (readFeatureDetectionArgs { nms := some [7] } initArgs).nms = true ∧
    (readFeatureDetectionArgs { nms := some [7] } initArgs).overlap = 7 :=
  ⟨(nms_flag_and_threshold { nms := some [7] } initArgs rfl).1.mpr rfl,
   (nms_flag_and_threshold { nms := some [7] } initArgs rfl).2.1 7 [] rfl⟩

/-- The feature-detection reader passes the step size through from the
variables map unchanged. -/
theorem readFeatureDetectionArgs_stepSize (vm : Vm) (a : Args) :
    (readFeatureDetectionArgs vm a).stepSize = vm.stepSize := by
  unfold readFeatureDetectionArgs
  cases vm.nms with
  | none => rfl
  | some args => cases args <;> rfl

/-- C4: when no step size is supplied the step size used for window
planning is the base-two logarithm of the window's largest dimension,
the same value in both dimensions; a supplied step size is used
as-is. -/
theorem step_size_default (vm : Vm) (a : Args) (w : ℕ × ℕ) :
    (vm.stepSize = none →
      calcSizes (readFeatureDetectionArgs vm a).stepSize w =
        (Nat.log2 (max w.1 w.2), Nat.log2 (max w.1 w.2))) ∧
    (∀ p, vm.stepSize = some p →
      calcSizes (readFeatureDetectionArgs vm a).stepSize w = p) := by
  rw [readFeatureDetectionArgs_stepSize]
  constructor
  · intro h
    rw [h]
    rfl
  · intro p h
    rw [h]
    rfl

/-- Witness for C4 on a 300×200 window, without and with a supplied
step size. -/
theorem step_size_default_witness :
    calcSizes (readFeatureDetectionArgs {} initArgs).stepSize (300, 200) =
      (Nat.log2 (max 300 200), Nat.log2 (max 300 200)) ∧
    calcSizes (readFeatureDetectionArgs { stepSize := some (64, 64) } initArgs).stepSize
      (300, 200) = (64, 64) :=
  ⟨(step_size_default {} initArgs (300, 200)).1 rfl,
   (step_size_default { stepSize := some (64, 64) } initArgs (300, 200)).2 (64, 64) rfl⟩

/-- Any feature produced by folding `addFeature` over processed windows
is either from the starting collection or was built from a prediction
that survived the confidence threshold, with its fields built by
`createFeatureFields`. -/
theorem mem_foldl_addFeature (t : ℚ) (pi : Bool) (meta : ProducerMeta)
    (ws : List (Rect × List Prediction)) :
    ∀ (fc : List Feature) (f : Feature),
      f ∈ ws.foldl (fun acc wp => addFeature t pi meta acc wp.1 wp.2) fc →
      f ∈ fc ∨ ∃ (w : Rect) (p : Prediction), ¬ p.confidence < t ∧
        f = Feature.mk w p.label p.confidence (createFeatureFields pi meta p) := by
  induction ws with
  | nil => intro fc f h; exact Or.inl h
  | cons wp ws ih =>
    intro fc f h
    simp only [List.foldl_cons] at h
    rcases ih _ f h with hfc | hx
    · unfold addFeature at hfc
      rcases List.mem_append.mp hfc with h1 | h2
      · exact Or.inl h1
      · rcases List.mem_map.mp h2 with ⟨p, hp, hf⟩
        have hp2 := List.mem_filter.mp hp
        refine Or.inr ⟨wp.1, p, ?_, hf.symm⟩
        simpa using hp2.2
    · exact Or.inr hx

/-- C2: no feature whose confidence is below the configured threshold
ever appears in the final feature collection of a run. -/
theorem low_confidence_discarded (t : ℚ) (pi : Bool) (meta : ProducerMeta)
    (windows : List (Rect × List Prediction)) (f : Feature)
    (h : f ∈ runDetection t pi meta windows) : ¬ f.confidence < t := by
  unfold runDetection at h
  rcases mem_foldl_addFeature t pi meta windows [] f h with hnil | ⟨w, p, hp, hf⟩
  · exact absurd hnil (List.not_mem_nil f)
  · rw [hf]
    simpa using hp

/-- Witness for C2: a run with threshold 1 over predictions of
confidence 0 and 2 yields only the confidence-2 feature. -/
theorem low_confidence_discarded_witness :
    ¬ (Feature.mk (Rect.mk 0 0 10 10) "car" 2
        (createFeatureFields false (ProducerMeta.mk "u" "osn" "1.0")
          (Prediction.mk "car" 2))).confidence < 1 :=
  low_confidence_discarded 1 false (ProducerMeta.mk "u" "osn" "1.0")
    [(Rect.mk 0 0 10 10, [Prediction.mk "car" 0, Prediction.mk "car" 2])]
    _ (by decide)

/-- C7: producer info is enabled exactly when the `--producer-info`
option is present, and when enabled the same fixed metadata attributes
(operator user name, tool name, tool version) are attached to every
feature produced in the run; when disabled no feature carries them. -/
theorem producer_info_fields :
    (∀ (vm : Vm) (a : Args) (r : Args), readOutputArgs vm a = Except.ok r →
      r.producerInfo = vm.producerInfo) ∧
    (∀ (t : ℚ) (pi : Bool) (meta : ProducerMeta)
        (windows : List (Rect × List Prediction)) (f : Feature),
      f ∈ runDetection t pi meta windows →
      (pi = true → f.fields.lookup "username" = some meta.username ∧
        f.fields.lookup "app" = some meta.appName ∧
        f.fields.lookup "app_ver" = some meta.appVersion) ∧
      (pi = false → f.fields.lookup "username" = none ∧
        f.fields.lookup "app" = none ∧ f.fields.lookup "app_ver" = none)) := by
  constructor
  · intro vm a r h
    unfold readOutputArgs at h
    cases ho : vm.output with
    | none => rw [ho] at h; simp at h
    | some outPath =>
      rw [ho] at h
      cases hg : readGeometryType vm.type with
      | error e => rw [hg] at h; simp at h
      | ok gt =>
        rw [hg] at h
        have hr := Except.ok.inj h
        rw [← hr]
  · intro t pi meta windows f h
    unfold runDetection at h
    rcases mem_foldl_addFeature t pi meta windows [] f h with hnil | ⟨w, p, hp, hf⟩
    · exact absurd hnil (List.not_mem_nil f)
    · rw [hf]
      cases pi
      · exact ⟨fun hpi => absurd hpi (by simp), fun _ => ⟨rfl, rfl, rfl⟩⟩
      · exact ⟨fun _ => ⟨rfl, rfl, rfl⟩, fun hpi => absurd hpi (by simp)⟩

/-- Witness for C7 at a concrete configuration with `--producer-info`
present and a concrete producer-enabled run. -/
theorem producer_info_fields_witness :
    ((readOutputArgs { output := some "o.geojson", producerInfo := true }
        initArgs).toOption.getD initArgs).producerInfo = true ∧
    (Feature.mk (Rect.mk 0 0 10 10) "car" 2
      (createFeatureFields true (ProducerMeta.mk "u" "osn" "1.0")
        (Prediction.mk "car" 2))).fields.lookup "username" = some "u" :=
  ⟨producer_info_fields.1 { output := some "o.geojson", producerInfo := true } initArgs
      _ (by rfl),
   ((producer_info_fields.2 1 true (ProducerMeta.mk "u" "osn" "1.0")
      [(Rect.mk 0 0 10 10, [Prediction.mk "car" 2])] _ (by decide)).1 rfl).1⟩

/-- Looking a key up after storing one parsed source: an existing value
is never overridden; a key absent from the map takes its first value in
the stored entries. -/
theorem lookup_store (es : List (String × String)) :
    ∀ (m : List (String × String)) (k : String),
      (store m es).lookup k = (m.lookup k).or (es.lookup k) := by
  induction es with
  | nil =>
    intro m k
    show m.lookup k = (m.lookup k).or none
    cases m.lookup k <;> rfl
  | cons e es ih =>
    intro m k
    rw [show store m (e :: es) = store (storeOne m e) es from rfl, ih]
    unfold storeOne
    by_cases hp : (m.lookup e.1).isSome = true
    · rw [if_pos hp]
      by_cases hk : e.1 = k
      · subst hk
        cases hm : m.lookup e.1 with
        | none => rw [hm] at hp; simp at hp
        | some v => simp [List.lookup, hm, Option.or]
      · have hbeq : (k == e.1) = false := beq_eq_false_iff_ne.mpr fun h => hk h.symm
        simp [List.lookup, hbeq]
    · rw [if_neg hp, List.lookup_append, Option.or_assoc]
      congr 1
      cases he : k == e.1 <;> simp [List.lookup, he, Option.or]

/-- Looking a key up after folding `store` over a list of parsed config
files: an existing value is never overridden; otherwise the first file
(in fold order) containing the key supplies the value. -/
theorem lookup_foldl_store (files : List (List (String × String))) :
    ∀ (m : List (String × String)) (k : String),
      (files.foldl store m).lookup k =
        (m.lookup k).or (files.findSome? (fun f => f.lookup k)) := by
  induction files with
  | nil =>
    intro m k
    show m.lookup k = (m.lookup k).or none
    cases m.lookup k <;> rfl
  | cons f fs ih =>
    intro m k
    rw [List.foldl_cons, ih, lookup_store, Option.or_assoc]
    congr 1
    cases hf : f.lookup k <;> simp [List.findSome?_cons, hf, Option.or]

/-- C9: an option set on the command line always wins over configuration
files; an option set only in configuration files takes its value from
the file listed last on the command line — `parseArgs` stores the
command line first, then the environment, then the config files in
reverse listing order, and `store` never overrides an existing value, so
the first hit in the reversed file list (the last listed file) wins. -/
theorem option_precedence (cmdline env : List (String × String))
    (configFiles : List (List (String × String))) (k : String) :
    ((cmdline.lookup k).isSome = true →
      (parseLayers cmdline env configFiles).lookup k = cmdline.lookup k) ∧
    (cmdline.lookup k = none → env.lookup k = none →
      (parseLayers cmdline env configFiles).lookup k =
        configFiles.reverse.findSome? (fun f => f.lookup k)) := by
  unfold parseLayers
  rw [lookup_foldl_store, lookup_store, lookup_store]
  constructor
  · intro h
    cases hc : cmdline.lookup k with
    | none => rw [hc] at h; simp at h
    | some v => simp [List.lookup, hc, Option.or]
  · intro hc he
    rw [hc, he]
    simp [List.lookup, Option.or]

/-- Witness for C9: a two-file configuration where the command line sets
`a` and both files set `b`; the command line wins for `a` and the
last-listed file wins for `b`. -/
theorem option_precedence_witness :
    (parseLayers [("a", "1")] [] [[("b", "2")], [("b", "3")]]).lookup "a" =
      [("a", "1")].lookup "a" ∧
    (parseLayers [("a", "1")] [] [[("b", "2")], [("b", "3")]]).lookup "b" =
      [[("b", "2")], [("b", "3")]].reverse.findSome? (fun f => f.lookup "b") :=
  ⟨(option_precedence [("a", "1")] [] [[("b", "2")], [("b", "3")]] "a").1 (by decide),
   (option_precedence [("a", "1")] [] [[("b", "2")], [("b", "3")]] "b").2
     (by decide) (by decide)⟩

/-- C10: with Shapefile output the layer name is always the stem of the
output path and a user-supplied `--output-layer` is ignored with a
warning; for every other format the layer name is the user-supplied
value when present and "skynetdetects" otherwise. -/
theorem shp_layer_name (vm : Vm) (a : Args) (outPath : String) (r : Args)
    (ho : vm.output = some outPath) (h : readOutputArgs vm a = Except.ok r) :
    (asciiLower (vm.format.getD a.outputFormat) = "shp" →
      r.layerName = pathStem outPath ∧
      (vm.outputLayer.isSome = true → shpLayerWarning ∈ r.warnings)) ∧
    (asciiLower (vm.format.getD a.outputFormat) ≠ "shp" →
      (∀ l, vm.outputLayer = some l → r.layerName = l) ∧
      (vm.outputLayer = none → r.layerName = "skynetdetects")) := by
  unfold readOutputArgs at h
  rw [ho] at h
  cases hg : readGeometryType vm.type with
  | error e => rw [hg] at h; simp at h
  | ok gt =>
    rw [hg] at h
    have hr := Except.ok.inj h
    rw [← hr]
    constructor
    · intro hfmt
      constructor
      · simp [hfmt]
      · intro hl
        simp [hfmt, hl]
    · intro hfmt
      constructor
      · intro l hl
        simp [hfmt, hl]
      · intro hl
        simp [hfmt, hl]

/-- Witness for C10 at a Shapefile run with a supplied output layer. -/
theorem shp_layer_name_witness :
    ((readOutputArgs { output := some "dir/result.shp", outputLayer := some "mylayer" }
        initArgs).toOption.getD initArgs).layerName = pathStem "dir/result.shp" ∧
    shpLayerWarning ∈
      ((readOutputArgs { output := some "dir/result.shp", outputLayer := some "mylayer" }
        initArgs).toOption.getD initArgs).warnings := by
  have h := shp_layer_name { output := some "dir/result.shp", outputLayer := some "mylayer" }
    initArgs "dir/result.shp" _ rfl (by rfl)
  exact ⟨(h.1 (by decide)).1, (h.1 (by decide)).2 rfl⟩

/-- C8: when the image source is a web service, argument reading fails
with the bbox-required error when no bounding box was supplied, before
any web-service argument (token, credentials, zoom, downloads) is
consumed — the error fires even when those are absent; for a local
image the bounding box may be omitted and reading succeeds without
it. -/
theorem bbox_required_for_web_service :
    (∀ (vm : Vm) (a : Args) (s : String) (src : Source),
      vm.service = some s → parseService s = Except.ok src → vm.bbox = none →
      readArgs vm a = Except.error ArgsError.bboxRequiredForWebServices) ∧
    (∀ (vm : Vm) (a : Args) (img mdl out : String),
      vm.service = none → vm.bbox = none → vm.image = some img → vm.model = some mdl →
      vm.output = some out → vm.type = none → vm.log = none →
      (readArgs vm a).isOk = true) := by
  constructor
  · intro vm a s src hs hps hb
    simp [readArgs, readWebServiceArgs, hs, hps, hb]
  · intro vm a img mdl out hs hb hi hm ho hty hl
    have hgt : readGeometryType vm.type = Except.ok GeometryType.POLYGON := by
      rw [hty]; rfl
    simp [readArgs, readWebServiceArgs, readProcessingArgs, readOutputArgs,
      readFeatureDetectionArgs, readLoggingArgs, hs, hb, hi, hm, ho, hgt, hl]
    rfl

/-- Witness for C8: a dgcs run without a bbox fails with the bbox error;
a local-image run without a bbox succeeds. -/
theorem bbox_required_for_web_service_witness :
    readArgs { service := some "dgcs", token := some "tok", model := some "m.gbdxm", output := some "out.shp" } initArgs =
      Except.error ArgsError.bboxRequiredForWebServices ∧
    (readArgs { image := some "in.tif", model := some "m.gbdxm", output := some "out.shp" }
      initArgs).isOk = true :=
  ⟨bbox_required_for_web_service.1
      { service := some "dgcs", token := some "tok", model := some "m.gbdxm", output := some "out.shp" }
      initArgs "dgcs" Source.DGCS rfl rfl rfl,
   bbox_required_for_web_service.2
      { image := some "in.tif", model := some "m.gbdxm", output := some "out.shp" }
      initArgs "in.tif" "m.gbdxm" "out.shp" rfl rfl rfl rfl rfl rfl rfl⟩

/-- The greedy suppression pass only ever removes candidates: its output
is a sublist of its input. -/
theorem nmsPass_sublist (t : ℚ) (l : List Feature) :
    List.Sublist (nmsPass t l) l := by
  induction l using nmsPass.induct t with
  | case1 => simp [nmsPass]
  | case2 x xs ih =>
    rw [nmsPass]
    exact List.Sublist.cons₂ x (ih.trans (List.filter_sublist xs))

/-- The greedy suppression pass is a fixpoint of itself: every element
of its output was accepted against every earlier accepted element, so a
second pass removes nothing. -/
theorem nmsPass_idem (t : ℚ) (l : List Feature) :
    nmsPass t (nmsPass t l) = nmsPass t l := by
  induction l using nmsPass.induct t with
  | case1 => simp [nmsPass]
  | case2 x xs ih =>
    rw [nmsPass]
    rw [nmsPass]
    have hkeep :
        (nmsPass t (xs.filter (fun y => ¬ suppresses t x y))).filter
          (fun y => ¬ suppresses t x y) =
        nmsPass t (xs.filter (fun y => ¬ suppresses t x y)) := by
      apply List.filter_eq_self.mpr
      intro y hy
      have hmem := (nmsPass_sublist t (xs.filter (fun y => ¬ suppresses t x y))).subset hy
      exact (List.mem_filter.mp hmem).2
    rw [hkeep, ih]

/-- Inserting into a descending-confidence list: membership. -/
theorem mem_insertDesc (x z : Feature) (l : List Feature) :
    z ∈ insertDesc x l ↔ z = x ∨ z ∈ l := by
  induction l with
  | nil => simp [insertDesc]
  | cons y ys ih =>
    unfold insertDesc
    by_cases h : y.confidence ≤ x.confidence
    · simp [h]
    · simp only [if_neg h, List.mem_cons, ih]
      tauto

/-- Inserting into a descending-confidence list keeps it sorted. -/
theorem insertDesc_sorted (x : Feature) (l : List Feature)
    (h : l.Pairwise (fun a b => b.confidence ≤ a.confidence)) :
    (insertDesc x l).Pairwise (fun a b => b.confidence ≤ a.confidence) := by
  induction l with
  | nil => simp [insertDesc]
  | cons y ys ih =>
    unfold insertDesc
    rcases List.pairwise_cons.mp h with ⟨hy, hys⟩
    by_cases hc : y.confidence ≤ x.confidence
    · rw [if_pos hc]
      refine List.pairwise_cons.mpr ⟨?_, h⟩
      intro z hz
      rcases List.mem_cons.mp hz with rfl | hz
      · exact hc
      · exact le_trans (hy z hz) hc
    · rw [if_neg hc]
      refine List.pairwise_cons.mpr ⟨?_, ih hys⟩
      intro z hz
      rcases (mem_insertDesc x z ys).mp hz with rfl | hz
      · exact le_of_not_le hc
      · exact hy z hz

/-- The output of `sortDesc` is sorted by descending confidence. -/
theorem sortDesc_sorted (l : List Feature) :
    (sortDesc l).Pairwise (fun a b => b.confidence ≤ a.confidence) := by
  induction l with
  | nil => simp [sortDesc]
  | cons x xs ih => exact insertDesc_sorted x (sortDesc xs) ih

/-- Sorting a list that is already sorted by descending confidence
returns it unchanged. -/
theorem sortDesc_eq_self (l : List Feature)
    (h : l.Pairwise (fun a b => b.confidence ≤ a.confidence)) :
    sortDesc l = l := by
  induction l with
  | nil => rfl
  | cons x xs ih =>
    rcases List.pairwise_cons.mp h with ⟨hx, hxs⟩
    rw [sortDesc, ih hxs]
    cases xs with
    | nil => rfl
    | cons y ys =>
      unfold insertDesc
      rw [if_pos (hx y (List.mem_cons_self y ys))]

/-- C3: non-maximum suppression is idempotent — applying `suppress` a
second time with the same overlap threshold returns the result of the
first application unchanged. -/
theorem suppress_idempotent (features : List Feature) (t : ℚ) :
    suppress (suppress features t) t = suppress features t := by
  unfold suppress
  rw [sortDesc_eq_self (nmsPass t (sortDesc features))
    (List.Pairwise.sublist (nmsPass_sublist t (sortDesc features)) (sortDesc_sorted features))]
  exact nmsPass_idem t (sortDesc features)

/-- C1 counterexample: with `--nms 5` — an overlap threshold outside
(0,1] — argument reading succeeds, stores 5 as the overlap threshold
and enables NMS; no error of any kind is raised, contradicting the
claim that configuration reading fails for thresholds outside (0,1]. -/
theorem nms_out_of_range_accepted :
    (readArgs { image := some "in.tif", model := some "m.gbdxm", output := some "out.shp", nms := some [5] } initArgs).toOption.map Args.overlap = some 5 ∧
    (readArgs { image := some "in.tif", model := some "m.gbdxm", output := some "out.shp", nms := some [5] } initArgs).toOption.map Args.nms = some true ∧
    ¬ (0 < (5 : ℚ) ∧ (5 : ℚ) ≤ 1) :=
  ⟨rfl, rfl, by decide⟩

/-- C1 (amended): configuration reading performs no validation of the
NMS overlap threshold — for any two supplied values the outcome of
`readArgs` is identical except for the stored `overlap` field, which
takes the supplied value; in particular no error ever depends on the
threshold value. -/
theorem nms_threshold_unvalidated (vm : Vm) (a : Args) (v w : ℚ) :
    readArgs { vm with nms := some [v] } a =
      Except.map (fun r => { r with overlap := v })
        (readArgs { vm with nms := some [w] } a) := by
  have hws : ∀ (x : Option (List ℚ)) (b : Args),
      readWebServiceArgs { vm with nms := x } b = readWebServiceArgs vm b := fun x b => rfl
  have hpr : ∀ (x : Option (List ℚ)) (b : Args),
      readProcessingArgs { vm with nms := x } b = readProcessingArgs vm b := fun x b => rfl
  have hout : ∀ (x : Option (List ℚ)) (b : Args),
      readOutputArgs { vm with nms := x } b = readOutputArgs vm b := fun x b => rfl
  have hlog : ∀ (x : Option (List ℚ)),
      readLoggingArgs { vm with nms := x } = readLoggingArgs vm := fun x => rfl
  have hfd : ∀ (b : Args),
      readFeatureDetectionArgs { vm with nms := some [v] } b =
        { readFeatureDetectionArgs { vm with nms := some [w] } b with overlap := v } :=
    fun b => rfl
  simp only [readArgs, hws, hpr, hout, hlog, hfd]
  repeat' split
  all_goals rfl
